import Mathlib

/-!
# Verification of `split-rename-pdf.py`

A shallow embedding of the batch PDF-splitting script: one input PDF, a
mapping spreadsheet with one row per desired output, a sanitized output
name per row, collision resolution for output paths, and a fail-fast
per-row page-range validation.

Strings are modelled as `List Char` (`Str`).  Python functions that can
call `sys.exit` or raise are modelled with `Option`/result codes; the
top-level `main` wrapper that catches every exception and exits with
code 1 is part of `mainRun`.  Machine-independent data (page numbers,
counts) are `Nat`/`Int` as in the source (Python ints are unbounded).
-/

abbrev Str := List Char

/-- A page of the source PDF, abstracted as an identifier.  `reader.pages`
is a `List Page`; extraction copies page objects by reference. -/
abbrev Page := Nat

/-! ## `sanitize_filename`

Source (`split-rename-pdf.py`):
```python
def sanitize_filename(value: str) -> str:
    cleaned = re.sub(r'[\/:*?"<>|\s]+', '_', value.strip())
    return cleaned.strip('_').lower()
```
The regex character class `[\/:*?"<>|\s]` contains an *escaped forward
slash* (`\/`), the characters `: * ? " < > |` and `\s` (whitespace); it
does **not** contain a backslash.  The embedding reproduces exactly that
set. -/

/-- Characters matched by `\s` in the regex (ASCII fragment of Python's
whitespace class), also the characters removed by `str.strip()`. -/
def isPySpace (c : Char) : Bool :=
  c = ' ' || c = '\t' || c = '\n' || c = '\r' || c = '\x0b' || c = '\x0c'

/-- The character class `[\/:*?"<>|\s]` of the `re.sub` call: forward
slash, colon, star, question mark, double quote, angle brackets, pipe and
whitespace.  Backslash is *not* in the class (`\/` escapes the slash). -/
def inClass (c : Char) : Bool :=
  isPySpace c || c = '/' || c = ':' || c = '*' || c = '?' ||
    c = '"' || c = '<' || c = '>' || c = '|'

/-- `str.strip(chars)`: drop the longest run of characters satisfying `p`
from both ends. -/
def pyStripBy (p : Char → Bool) (l : Str) : Str :=
  ((l.dropWhile p).reverse.dropWhile p).reverse

/-- `str.strip()` with no argument: strip whitespace from both ends. -/
def pyStrip (l : Str) : Str := pyStripBy isPySpace l

/-- State-passing core of `re.sub(r'[...]+', '_', s)`: the flag records
whether the previous character was inside a run of class characters, so
each maximal run contributes a single `'_'`. -/
def collapseAux : Bool → Str → Str
  | _, [] => []
  | prevIn, c :: cs =>
    if inClass c then
      (if prevIn then collapseAux true cs else '_' :: collapseAux true cs)
    else c :: collapseAux false cs

/-- `re.sub(r'[\/:*?"<>|\s]+', '_', s)`: replace every maximal run of
class characters by one underscore. -/
def collapseRuns (l : Str) : Str := collapseAux false l

/-- `str.lower()` (ASCII fragment), applied characterwise. -/
def pyLower (l : Str) : Str := l.map Char.toLower

/-- `sanitize_filename`: strip whitespace, collapse class runs to `'_'`,
strip leading/trailing underscores, lowercase. -/
def sanitize_filename (value : Str) : Str :=
  pyLower (pyStripBy (fun c => c = '_') (collapseRuns (pyStrip value)))

/-! ## `ask_yes_no`

Source:
```python
def ask_yes_no(prompt: str) -> bool:
    choice = input(prompt).strip().lower()
    if choice not in {"y", "n"}:
        print_error("Invalid input.", ["Please enter only 'y' or 'n'"])
        sys.exit(1)
    return choice == "y"
```
The operator's reply is the argument; `none` models `sys.exit(1)` on any
reply that is not `y`/`n` after stripping and lowercasing. -/

def ask_yes_no (reply : Str) : Option Bool :=
  let choice := pyLower (pyStrip reply)
  if choice = "y".data then some true
  else if choice = "n".data then some false
  else none

/-! ## Rows and `generate_output_name` -/

/-- One row of `rename-pdf-mapping.xlsx`, after the dtype-coerced
`pd.read_excel`: four string fields and four integer fields. -/
structure Row where
  yearbook : Str
  year : Str
  category : Str
  products : Str
  yearbook_start : Int
  yearbook_end : Int
  pdf_start : Int
  pdf_end : Int
deriving DecidableEq

/-- Decimal rendering of `int(...)` used in the f-string / `format`. -/
def intRepr (i : Int) : Str := (toString i).data

/-- `generate_output_name`: sanitize the four text fields and substitute
them together with the two yearbook page numbers into
`{yearbook}_{category}_{year}_{first_page}_{last_page}_{product}`; when
the sanitized products value is empty the `_{product}` tail is dropped
(the early-return f-string of the source). -/
def generate_output_name (r : Row) : Str :=
  let yb := sanitize_filename r.yearbook
  let yr := sanitize_filename r.year
  let cat := sanitize_filename r.category
  let pr := sanitize_filename r.products
  if pr = [] then
    yb ++ '_' :: cat ++ '_' :: yr ++ '_' :: intRepr r.yearbook_start ++
      '_' :: intRepr r.yearbook_end
  else
    yb ++ '_' :: cat ++ '_' :: yr ++ '_' :: intRepr r.yearbook_start ++
      '_' :: intRepr r.yearbook_end ++ '_' :: pr

/-- The per-row blankness test of `handle_empty_products`:
`df["products"].astype(str).str.strip() == ""` (missing values are out of
scope of the embedding; fields are strings). -/
def productsBlank (r : Row) : Bool := (pyStrip r.products).isEmpty

/-- `handle_empty_products`: when at least one row has a blank `products`
cell, ask the operator; an invalid reply or the answer `n` aborts the run
(`none`); on `y` the blank cells are set to the empty string. -/
def handle_empty_products (rows : List Row) (reply : Str) : Option (List Row) :=
  if rows.any productsBlank then
    match ask_yes_no reply with
    | some true =>
        some (rows.map fun r =>
          if productsBlank r then { r with products := [] } else r)
    | _ => none
  else some rows

/-! ## `unique_output_path` -/

/-- The candidate path with suffix index `i` inside the output folder:
`{name}.pdf` for `i = 0`, `{name}_{i}.pdf` otherwise. -/
def candName (name : Str) (i : Nat) : Str :=
  if i = 0 then name ++ ".pdf".data
  else name ++ "_".data ++ (Nat.repr i).data ++ ".pdf".data

/-- `unique_output_path`: probe `{name}.pdf`, then `{name}_{i}.pdf` for
`i` in `range(1, 10_000)`, and return the first candidate not present in
the folder.  `none` models the `StopIteration` raised by `next` when all
10 000 candidates exist. -/
def unique_output_path (fs : List Str) (name : Str) : Option Str :=
  (candName name 0 :: (List.range' 1 9999).map (candName name)).find?
    (fun p => decide (p ∉ fs))

/-! ## `extract_pdf_pages`

Source:
```python
def extract_pdf_pages(reader: PdfReader, start: int, end: int, output: Path):
    writer = PdfWriter()
    for i in range(start - 1, end):
        writer.add_page(reader.pages[i])
    with open(output, "wb") as f:
        writer.write(f)
```
The loop copies pages `start-1 .. end-1` (0-based); an out-of-range index
raises (`none`).  `open(output, "wb")` requires the parent directory of
`output` to exist and raises `FileNotFoundError` otherwise; it never
creates directories.  The caller guarantees `start ≥ 1` through row
validation, which the `Nat` indices reflect. -/

/-- The pages collected into the `PdfWriter`. -/
def extract_pdf_pages (pages : List Page) (start : Nat) (stop : Nat) :
    Option (List Page) :=
  (List.range' (start - 1) (stop - (start - 1))).mapM (fun i => pages.get? i)

/-- `open(output, "wb")` followed by `writer.write(f)`: succeeds only when
the parent directory exists; directories are never created. -/
def write_output (dirs : List Str) (files : List (Str × List Page))
    (parent : Str) (fname : Str) (doc : List Page) :
    Option (List (Str × List Page)) :=
  if parent ∈ dirs then some ((parent ++ '/' :: fname, doc) :: files)
  else none

/-- `extract_pdf_pages` including the file write: build the page list,
then persist it at `parent/fname`. -/
def extract_pdf_pages_run (pages : List Page) (start stop : Nat)
    (dirs : List Str) (files : List (Str × List Page))
    (parent fname : Str) : Option (List (Str × List Page)) :=
  match extract_pdf_pages pages start stop with
  | none => none
  | some doc => write_output dirs files parent fname doc

/-! ## The main run (`split_and_rename_pdf` plus the `__main__` handler) -/

/-- The row validation of the main loop, literally
`pdf_start < 1 or pdf_end > total_pages or pdf_start > pdf_end`. -/
def invalidRange (total_pages : Nat) (r : Row) : Bool :=
  r.pdf_start < 1 || r.pdf_end > (total_pages : Int) || r.pdf_start > r.pdf_end

/-- One iteration's output-path choice: take `{name}.pdf`; when it exists
and overwrite mode is off, fall back to `unique_output_path`.  `none`
models the uncaught `StopIteration`. -/
def processRow (overwrite_all : Bool) (fs : List Str) (r : Row) : Option Str :=
  let name := generate_output_name r
  let path0 := candName name 0
  if path0 ∈ fs ∧ ¬ overwrite_all then unique_output_path fs name
  else some path0

/-- The main loop over the rows: validate the page range (fail-fast),
choose the output path, extract and write (the write is recorded as the
pair `(row index, path)` and the path joins the folder's file set; the
output folder itself was created by `create_output_folder`, and the page
range was validated, so the write cannot fail).  The `Bool` is `false`
when the run aborts (`sys.exit(1)` or an exception reaching the
`__main__` handler). -/
def loopGo (total_pages : Nat) (overwrite_all : Bool) :
    List Str → List Row → Nat → List (Nat × Str) × Bool
  | _, [], _ => ([], true)
  | fs, r :: rs, k =>
    if invalidRange total_pages r then ([], false)
    else
      match processRow overwrite_all fs r with
      | none => ([], false)
      | some p =>
        let rest := loopGo total_pages overwrite_all (p :: fs) rs (k + 1)
        ((k, p) :: rest.1, rest.2)

/-- The spreadsheet as `load_excel` sees it: whether required columns are
missing, and the parsed rows. -/
structure Excel where
  missingCols : Bool
  rows : List Row
deriving DecidableEq

/-- The run's environment: number of `*.pdf` files next to the script,
the spreadsheet (`none` when the file is absent), the operator's two
prompt replies, the source document's pages, and the files already
present in the output folder. -/
structure Env where
  pdfCount : Nat
  excel : Option Excel
  blankAnswer : Str
  overwriteAnswer : Str
  pages : List Page
  fsFiles : List Str
deriving DecidableEq

/-- `split_and_rename_pdf` under the `__main__` handler, returning the
process exit code and the `(row index, path)` writes, in order:
`check_pdf_files` (exactly one PDF or exit 1), `create_output_folder`,
`load_excel` (absent file: template created, exit 0; missing columns or
empty table: exit 1), `handle_empty_products`, the collision scan with
the one-shot overwrite prompt, then the row loop. -/
def mainRun (e : Env) : Nat × List (Nat × Str) :=
  if e.pdfCount ≠ 1 then (1, [])
  else
    match e.excel with
    | none => (0, [])
    | some ex =>
      if ex.missingCols ∨ ex.rows.isEmpty then (1, [])
      else
        match handle_empty_products ex.rows e.blankAnswer with
        | none => (1, [])
        | some rows1 =>
          match (if rows1.any (fun r =>
                   decide (candName (generate_output_name r) 0 ∈ e.fsFiles))
                 then ask_yes_no e.overwriteAnswer
                 else some false) with
          | none => (1, [])
          | some overwrite_all =>
            (if (loopGo e.pages.length overwrite_all e.fsFiles rows1 0).2
             then 0 else 1,
             (loopGo e.pages.length overwrite_all e.fsFiles rows1 0).1)

/-! ## Concrete instances used by the closed theorems below -/

/-- A sample valid row (end-to-end scenario 1 of the spec). -/
def rowBall : Row :=
  ⟨"Acme".data, "2020".data, "Sports".data, "Ball".data, 1, 5, 1, 5⟩

/-- A row whose `products` cell is only `?` characters. -/
def rowQuestion : Row :=
  ⟨"Acme".data, "2020".data, "Sports".data, "???".data, 1, 5, 1, 5⟩

/-- A row whose `products` cell is a single backslash. -/
def rowBackslash : Row :=
  ⟨"Acme".data, "2020".data, "Sports".data, ['\\'], 1, 5, 1, 5⟩

/-- A row with an inverted page range. -/
def rowBad : Row :=
  ⟨"Acme".data, "2020".data, "Sports".data, "Ball".data, 1, 5, 3, 2⟩

/-- An output folder holding all 10 000 candidate paths for the base name
`doc`: `doc.pdf` and `doc_1.pdf` … `doc_9999.pdf`. -/
def fsAllCands : List Str :=
  candName "doc".data 0 :: (List.range' 1 9999).map (candName "doc".data)

/-- A valid, non-blank row used to exercise collision exhaustion. -/
def rowDoc : Row :=
  ⟨"doc".data, "1".data, "c".data, "p".data, 1, 1, 1, 1⟩

/-- A row whose `products` cell is whitespace only. -/
def rowBlankProducts : Row :=
  ⟨"Acme".data, "2020".data, "Sports".data, "  ".data, 1, 5, 1, 5⟩

/-- All 10 000 candidate paths for `rowDoc`'s generated base name. -/
def fsDocAll : List Str :=
  candName (generate_output_name rowDoc) 0 ::
    (List.range' 1 9999).map (candName (generate_output_name rowDoc))

/-- A folder holding `doc.pdf` and `doc_1.pdf`. -/
def fsTwo : List Str := [candName "doc".data 0, candName "doc".data 1]

/-- Environment: one source PDF, one row with an inverted page range. -/
def envBadRange : Env :=
  ⟨1, some ⟨false, [rowBad]⟩, [], [], [0, 1], []⟩

/-- Environment: one source PDF, spreadsheet absent (first run). -/
def envTemplate : Env := ⟨1, none, [], [], [0], []⟩

/-- Environment: two PDFs next to the script. -/
def envTwoPdfs : Env := ⟨2, some ⟨false, [rowBall]⟩, [], [], [0], []⟩

/-- Environment: spreadsheet with missing required columns. -/
def envMissingCols : Env := ⟨1, some ⟨true, [rowBall]⟩, [], [], [0], []⟩

/-- Environment: spreadsheet with a header but no data rows. -/
def envEmptyRows : Env := ⟨1, some ⟨false, []⟩, [], [], [0], []⟩

/-- Environment: a fully valid single-row run on a five-page source. -/
def envSuccess : Env :=
  ⟨1, some ⟨false, [rowBall]⟩, [], [], [0, 1, 2, 3, 4], []⟩

/-- Environment: valid row whose 10 000 candidate output paths all exist. -/
def envExhaust : Env :=
  ⟨1, some ⟨false, [rowDoc]⟩, [], "n".data, [0], fsDocAll⟩

/-- Environment: blank `products` cell and the invalid prompt reply `x`. -/
def envInvalidReply : Env :=
  ⟨1, some ⟨false, [rowBlankProducts]⟩, "x".data, [], [0, 1, 2, 3, 4], []⟩

/-! ## Character-level lemmas about `Char.toLower` -/

theorem toLower_eq (c : Char) : Char.toLower c =
    if c.toNat ≥ 65 ∧ c.toNat ≤ 90 then Char.ofNat (c.toNat + 32) else c := rfl

theorem toLower_toLower (c : Char) :
    Char.toLower (Char.toLower c) = Char.toLower c := by
  rw [toLower_eq c]
  split
  · rename_i hu
    obtain ⟨h1, h2⟩ := hu
    rw [toLower_eq]
    generalize c.toNat = n at h1 h2
    interval_cases n <;> decide
  · rename_i hu
    rw [toLower_eq, if_neg hu]

theorem toLower_eq_underscore {c : Char} (h : Char.toLower c = '_') : c = '_' := by
  rw [toLower_eq] at h
  split at h
  · exfalso
    rename_i hu
    obtain ⟨h1, h2⟩ := hu
    generalize c.toNat = n at h1 h2 h
    interval_cases n <;> exact absurd h (by decide)
  · exact h

theorem inClass_toLower {c : Char} (h : inClass c = false) :
    inClass (Char.toLower c) = false := by
  rw [toLower_eq]
  split
  · rename_i hu
    obtain ⟨h1, h2⟩ := hu
    generalize c.toNat = n at h1 h2
    interval_cases n <;> decide
  · exact h

theorem toLower_not_upper (c : Char) :
    ¬(65 ≤ (Char.toLower c).toNat ∧ (Char.toLower c).toNat ≤ 90) := by
  rw [toLower_eq]
  split
  · rename_i hu
    obtain ⟨h1, h2⟩ := hu
    generalize c.toNat = n at h1 h2
    interval_cases n <;> decide
  · rename_i hu
    exact hu

theorem isPySpace_false_of_inClass {c : Char} (h : inClass c = false) :
    isPySpace c = false := by
  cases hsp : isPySpace c
  · rfl
  · rw [inClass, hsp] at h
    simp at h

/-! ## Lemmas about `pyStripBy` and `collapseRuns` -/

theorem dropWhile_eq_self_of_head {p : Char → Bool} {l : Str}
    (h : ∀ (hne : l ≠ []), p (l.head hne) = false) : l.dropWhile p = l := by
  cases l with
  | nil => rfl
  | cons a as =>
    have ha : p a = false := by
      have := h (List.cons_ne_nil a as)
      simpa using this
    rw [List.dropWhile_cons, if_neg (by simp [ha])]

theorem mem_pyStripBy {p : Char → Bool} {l : Str} {c : Char}
    (h : c ∈ pyStripBy p l) : c ∈ l := by
  unfold pyStripBy at h
  rw [List.mem_reverse] at h
  have h2 := (List.dropWhile_sublist p).mem h
  rw [List.mem_reverse] at h2
  exact (List.dropWhile_sublist p).mem h2

theorem pyStripBy_eq_self {p : Char → Bool} {l : Str}
    (h : ∀ c ∈ l, p c = false) : pyStripBy p l = l := by
  unfold pyStripBy
  have h1 : l.dropWhile p = l := by
    cases l with
    | nil => rfl
    | cons a as =>
      rw [List.dropWhile_cons, if_neg (by simp [h a (List.mem_cons_self a as)])]
  rw [h1]
  have h2 : l.reverse.dropWhile p = l.reverse := by
    cases hl : l.reverse with
    | nil => rfl
    | cons a as =>
      rw [List.dropWhile_cons, if_neg ?_]
      have : a ∈ l := by
        rw [← List.mem_reverse, hl]
        exact List.mem_cons_self a as
      simp [h a this]
  rw [h2, List.reverse_reverse]

theorem pyStripBy_head {p : Char → Bool} {l : Str}
    (hne : pyStripBy p l ≠ []) : p ((pyStripBy p l).head hne) = false := by
  unfold pyStripBy at *
  rw [List.head_reverse]
  have hv : (l.dropWhile p).reverse.dropWhile p ≠ [] := by
    intro hc
    exact hne (by rw [hc]; rfl)
  have hsuf := @List.dropWhile_suffix Char (l.dropWhile p).reverse p
  rw [hsuf.getLast hv]
  have hrev : (l.dropWhile p).reverse ≠ [] := by
    intro hc
    exact hv (by rw [hc]; rfl)
  rw [List.getLast_reverse]
  exact List.head_dropWhile_not p l _

theorem pyStripBy_getLast {p : Char → Bool} {l : Str}
    (hne : pyStripBy p l ≠ []) : p ((pyStripBy p l).getLast hne) = false := by
  unfold pyStripBy at *
  rw [List.getLast_reverse]
  exact List.head_dropWhile_not p _ _

theorem pyStripBy_idem (p : Char → Bool) (l : Str) :
    pyStripBy p (pyStripBy p l) = pyStripBy p l := by
  conv_lhs => rw [pyStripBy]
  rw [dropWhile_eq_self_of_head (fun hne => pyStripBy_head hne)]
  rw [dropWhile_eq_self_of_head ?hrev]
  · exact List.reverse_reverse _
  case hrev =>
    intro hne
    rw [List.head_reverse]
    exact pyStripBy_getLast _

theorem mem_collapseAux {c : Char} :
    ∀ {b : Bool} {l : Str}, c ∈ collapseAux b l → inClass c = false := by
  intro b l
  induction l generalizing b with
  | nil => intro h; simp [collapseAux] at h
  | cons a as ih =>
    intro h
    rw [collapseAux] at h
    split at h
    · split at h
      · exact ih h
      · rcases List.mem_cons.mp h with h1 | h1
        · subst h1; decide
        · exact ih h1
    · rcases List.mem_cons.mp h with h1 | h1
      · subst h1
        rename_i ha
        simpa using ha
      · exact ih h1

theorem collapseAux_eq_self {l : Str} (h : ∀ c ∈ l, inClass c = false) :
    ∀ b, collapseAux b l = l := by
  induction l with
  | nil => intro b; rfl
  | cons a as ih =>
    intro b
    have ha : inClass a = false := h a (List.mem_cons_self a as)
    rw [collapseAux, if_neg (by simp [ha]),
        ih (fun c hc => h c (List.mem_cons_of_mem _ hc)) false]

/-! ## Properties of `sanitize_filename` -/

theorem mem_sanitize_inClass {s : Str} {c : Char}
    (h : c ∈ sanitize_filename s) : inClass c = false := by
  unfold sanitize_filename pyLower at h
  rcases List.mem_map.mp h with ⟨d, hd, rfl⟩
  exact inClass_toLower (mem_collapseAux (mem_pyStripBy hd))

theorem mem_sanitize_not_space {s : Str} {c : Char}
    (h : c ∈ sanitize_filename s) : isPySpace c = false :=
  isPySpace_false_of_inClass (mem_sanitize_inClass h)

theorem mem_sanitize_not_upper {s : Str} {c : Char}
    (h : c ∈ sanitize_filename s) : ¬(65 ≤ c.toNat ∧ c.toNat ≤ 90) := by
  unfold sanitize_filename pyLower at h
  rcases List.mem_map.mp h with ⟨d, _, rfl⟩
  exact toLower_not_upper d

theorem sanitize_head_ne_underscore {s : Str}
    (hne : sanitize_filename s ≠ []) :
    (sanitize_filename s).head hne ≠ '_' := by
  unfold sanitize_filename pyLower at *
  rw [List.head_map]
  intro hc
  have hz := toLower_eq_underscore hc
  have hzne : pyStripBy (fun c => c = '_') (collapseRuns (pyStrip s)) ≠ [] := by
    intro h0
    exact hne (by rw [h0]; rfl)
  have := pyStripBy_head hzne
  rw [hz] at this
  simp at this

theorem sanitize_getLast_ne_underscore {s : Str}
    (hne : sanitize_filename s ≠ []) :
    (sanitize_filename s).getLast hne ≠ '_' := by
  unfold sanitize_filename pyLower at *
  rw [List.getLast_map]
  intro hc
  have hz := toLower_eq_underscore hc
  have hzne : pyStripBy (fun c => c = '_') (collapseRuns (pyStrip s)) ≠ [] := by
    intro h0
    exact hne (by rw [h0]; rfl)
  have := pyStripBy_getLast hzne
  rw [hz] at this
  simp at this

theorem sanitize_underscore_strip (s : Str) :
    pyStripBy (fun c => c = '_') (sanitize_filename s) = sanitize_filename s := by
  have h1 : (sanitize_filename s).dropWhile (fun c => decide (c = '_')) =
      sanitize_filename s :=
    dropWhile_eq_self_of_head
      (fun hne => decide_eq_false (sanitize_head_ne_underscore hne))
  have h2 : (sanitize_filename s).reverse.dropWhile (fun c => decide (c = '_')) =
      (sanitize_filename s).reverse := by
    apply dropWhile_eq_self_of_head
    intro hne
    have hne2 : sanitize_filename s ≠ [] := by
      intro h0
      exact hne (by rw [h0]; rfl)
    rw [List.head_reverse]
    exact decide_eq_false (sanitize_getLast_ne_underscore hne2)
  unfold pyStripBy
  rw [h1, h2, List.reverse_reverse]

theorem sanitize_pyLower_eq (s : Str) :
    pyLower (sanitize_filename s) = sanitize_filename s := by
  conv_lhs => rw [sanitize_filename]
  unfold pyLower
  rw [List.map_map]
  conv_rhs => rw [sanitize_filename]
  unfold pyLower
  exact List.map_congr_left (fun c _ => toLower_toLower c)

theorem sanitize_filename_idem (s : Str) :
    sanitize_filename (sanitize_filename s) = sanitize_filename s := by
  have hsp : ∀ c ∈ sanitize_filename s, isPySpace c = false :=
    fun c hc => mem_sanitize_not_space hc
  have hcls : ∀ c ∈ sanitize_filename s, inClass c = false :=
    fun c hc => mem_sanitize_inClass hc
  conv_lhs => rw [sanitize_filename]
  rw [show pyStrip (sanitize_filename s) = sanitize_filename s from
        pyStripBy_eq_self hsp]
  rw [show collapseRuns (sanitize_filename s) = sanitize_filename s from
        collapseAux_eq_self hcls false]
  rw [sanitize_underscore_strip]
  exact sanitize_pyLower_eq s

/-! ## Lemmas about `unique_output_path` -/

theorem candidates_eq (name : Str) :
    candName name 0 :: (List.range' 1 9999).map (candName name) =
      (List.range' 0 10000).map (candName name) := rfl

theorem find?_range'_eq_some {p : Nat → Bool} :
    ∀ (n s N : Nat), s ≤ N → N < s + n →
      (∀ i, s ≤ i → i < N → p i = false) → p N = true →
      (List.range' s n).find? p = some N := by
  intro n
  induction n with
  | zero =>
    intro s N h1 h2
    omega
  | succ n ih =>
    intro s N h1 h2 hbelow hN
    rw [List.range'_succ]
    rcases Nat.eq_or_lt_of_le h1 with heq | hlt
    · subst heq
      exact List.find?_cons_of_pos _ hN
    · rw [List.find?_cons_of_neg _ (by simp [hbelow s (Nat.le_refl s) hlt])]
      exact ih (s + 1) N hlt (by omega) (fun i hi1 hi2 => hbelow i (by omega) hi2) hN

theorem unique_output_path_none {fs : List Str} {name : Str}
    (h : ∀ i, i ≤ 9999 → candName name i ∈ fs) :
    unique_output_path fs name = none := by
  unfold unique_output_path
  rw [List.find?_eq_none]
  intro x hx
  have hxfs : x ∈ fs := by
    rcases List.mem_cons.mp hx with h0 | hmem
    · subst h0
      exact h 0 (by omega)
    · rcases List.mem_map.mp hmem with ⟨i, hi, rfl⟩
      rw [List.mem_range'] at hi
      obtain ⟨k, hk, rfl⟩ := hi
      exact h _ (by omega)
  simp [hxfs]

theorem unique_output_path_eq_some {fs : List Str} {name : Str} {N : Nat}
    (hN : N ≤ 9999)
    (hbelow : ∀ i, i < N → candName name i ∈ fs)
    (hfree : candName name N ∉ fs) :
    unique_output_path fs name = some (candName name N) := by
  unfold unique_output_path
  rw [candidates_eq, List.find?_map]
  rw [find?_range'_eq_some 10000 0 N (Nat.zero_le N) (by omega) ?hf ?ht]
  · rfl
  case hf =>
    intro i _ hi
    exact decide_eq_false (not_not_intro (hbelow i hi))
  case ht =>
    exact decide_eq_true hfree

theorem unique_output_path_not_mem {fs : List Str} {name p : Str}
    (h : unique_output_path fs name = some p) : p ∉ fs := by
  unfold unique_output_path at h
  have := List.find?_some h
  simpa using this

theorem unique_output_path_exists_free {fs : List Str} {name : Str}
    (h : ∃ i, i ≤ 9999 ∧ candName name i ∉ fs) :
    ∃ p, unique_output_path fs name = some p ∧ p ∉ fs := by
  obtain ⟨i, hi, hfree⟩ := h
  have hmem : candName name i ∈
      (candName name 0 :: (List.range' 1 9999).map (candName name)) := by
    rcases Nat.eq_zero_or_pos i with h0 | hpos
    · subst h0
      exact List.mem_cons_self _ _
    · refine List.mem_cons_of_mem _ (List.mem_map.mpr ⟨i, ?_, rfl⟩)
      rw [List.mem_range']
      exact ⟨i - 1, by omega, by omega⟩
  have hsome : (unique_output_path fs name).isSome = true := by
    unfold unique_output_path
    exact List.find?_isSome.mpr ⟨_, hmem, decide_eq_true hfree⟩
  obtain ⟨p, hp⟩ := Option.isSome_iff_exists.mp hsome
  exact ⟨p, hp, unique_output_path_not_mem hp⟩

/-! ## Lemmas about `extract_pdf_pages` -/

theorem mapM_get?_range' {α : Type} :
    ∀ (n a : Nat) (l : List α), a + n ≤ l.length →
      (List.range' a n).mapM (fun i => l.get? i) = some ((l.drop a).take n) := by
  intro n
  induction n with
  | zero =>
    intro a l _
    rfl
  | succ n ih =>
    intro a l h
    rw [List.range'_succ, List.mapM_cons]
    have ha : a < l.length := by omega
    rw [List.get?_eq_getElem?, List.getElem?_eq_getElem ha]
    have ihv := ih (a + 1) l (by omega)
    rw [ihv]
    have hdrop : l.drop a = l[a] :: l.drop (a + 1) := List.drop_eq_getElem_cons ha
    rw [hdrop, List.take_succ_cons]
    rfl

/-! ## Lemmas about the main loop and `mainRun` -/

theorem candName_zero_inj {a b : Str} (h : candName a 0 = candName b 0) :
    a = b := by
  rw [candName, candName, if_pos rfl, if_pos rfl] at h
  exact List.append_cancel_right h

theorem invalidRange_congr {tp : Nat} {r r' : Row}
    (h1 : r.pdf_start = r'.pdf_start) (h2 : r.pdf_end = r'.pdf_end) :
    invalidRange tp r = invalidRange tp r' := by
  rw [invalidRange, invalidRange, h1, h2]

theorem handle_empty_products_preserves {rows rows1 : List Row} {reply : Str}
    (h : handle_empty_products rows reply = some rows1) :
    rows1.map (fun r => (r.pdf_start, r.pdf_end)) =
      rows.map (fun r => (r.pdf_start, r.pdf_end)) := by
  unfold handle_empty_products at h
  by_cases hany : rows.any productsBlank
  · rw [if_pos hany] at h
    cases hask : ask_yes_no reply with
    | none =>
      rw [hask] at h
      simp at h
    | some b =>
      rw [hask] at h
      cases b with
      | false => simp at h
      | true =>
        simp only [Option.some.injEq] at h
        rw [← h, List.map_map]
        refine List.map_congr_left (fun r _ => ?_)
        by_cases hb2 : productsBlank r
        · simp [Function.comp, hb2]
        · simp [Function.comp, hb2]
  · rw [if_neg hany] at h
    simp only [Option.some.injEq] at h
    rw [← h]

theorem loopGo_invalid {tp : Nat} {ov : Bool} :
    ∀ (rows : List Row) (fs : List Str) (k i : Nat) (hi : i < rows.length),
      invalidRange tp rows[i] = true →
      (loopGo tp ov fs rows k).2 = false ∧
        (k + i) ∉ (loopGo tp ov fs rows k).1.map Prod.fst := by
  intro rows
  induction rows with
  | nil =>
    intro fs k i hi
    exact absurd hi (by simp)
  | cons r rs ih =>
    intro fs k i hi hbad
    rw [loopGo]
    by_cases hv : invalidRange tp r = true
    · rw [if_pos hv]
      exact ⟨rfl, by simp⟩
    · rw [if_neg hv]
      cases i with
      | zero =>
        rw [List.getElem_cons_zero] at hbad
        exact absurd hbad hv
      | succ j =>
        rw [List.getElem_cons_succ] at hbad
        cases hp : processRow ov fs r with
        | none => exact ⟨rfl, by simp⟩
        | some p =>
          have hrec := ih (p :: fs) (k + 1) j (by
            have := hi
            simp at this
            omega) hbad
          refine ⟨hrec.1, ?_⟩
          simp only [List.map_cons, List.mem_cons]
          push_neg
          constructor
          · omega
          · have : k + 1 + j = k + (j + 1) := by omega
            rw [this] at hrec
            exact hrec.2

theorem loopGo_success {tp : Nat} :
    ∀ (rows : List Row) (fs : List Str) (k : Nat),
      (∀ r ∈ rows, invalidRange tp r = false) →
      List.Pairwise (fun a b => a ≠ b) (rows.map generate_output_name) →
      (∀ r ∈ rows, candName (generate_output_name r) 0 ∉ fs) →
      (loopGo tp false fs rows k).2 = true := by
  intro rows
  induction rows with
  | nil =>
    intro fs k _ _ _
    rfl
  | cons r rs ih =>
    intro fs k hvalid hpw hfresh
    rw [loopGo, if_neg (by simp [hvalid r (List.mem_cons_self r rs)])]
    have hp0 : candName (generate_output_name r) 0 ∉ fs :=
      hfresh r (List.mem_cons_self r rs)
    have hpr : processRow false fs r =
        some (candName (generate_output_name r) 0) := by
      rw [processRow, if_neg (by simp [hp0])]
    rw [hpr]
    rw [List.map_cons, List.pairwise_cons] at hpw
    exact ih _ (k + 1)
      (fun x hx => hvalid x (List.mem_cons_of_mem r hx))
      hpw.2
      (fun x hx => by
        intro hmem
        rcases List.mem_cons.mp hmem with heq | hmem2
        · exact hpw.1 (generate_output_name x)
            (List.mem_map_of_mem generate_output_name hx)
            (candName_zero_inj heq).symm
        · exact hfresh x (List.mem_cons_of_mem r hx) hmem2)

theorem mainRun_pdf_fail {e : Env} (h : e.pdfCount ≠ 1) : mainRun e = (1, []) := by
  unfold mainRun
  rw [if_pos h]

theorem mainRun_template {e : Env} (h1 : e.pdfCount = 1)
    (h2 : e.excel = none) : mainRun e = (0, []) := by
  unfold mainRun
  rw [if_neg (by simp [h1]), h2]
  

theorem mainRun_schema_fail {e : Env} {ex : Excel} (hex : e.excel = some ex)
    (h : ex.missingCols = true ∨ ex.rows = []) : mainRun e = (1, []) := by
  unfold mainRun
  by_cases hpdf : e.pdfCount ≠ 1
  · rw [if_pos hpdf]
  · rw [if_neg hpdf, hex]
    dsimp only
    rw [if_pos ?_]
    rcases h with h | h
    · exact Or.inl h
    · exact Or.inr (by simp [h])

theorem mainRun_invalid_row {e : Env} {ex : Excel} {i : Nat}
    (hex : e.excel = some ex) (hi : i < ex.rows.length)
    (hbad : invalidRange e.pages.length ex.rows[i] = true) :
    (mainRun e).1 = 1 ∧ i ∉ (mainRun e).2.map Prod.fst := by
  unfold mainRun
  by_cases hpdf : e.pdfCount ≠ 1
  · rw [if_pos hpdf]
    exact ⟨rfl, by simp⟩
  · rw [if_neg hpdf, hex]
    dsimp only
    by_cases hmc : (ex.missingCols = true ∨ ex.rows.isEmpty = true)
    · rw [if_pos hmc]
      exact ⟨rfl, by simp⟩
    · rw [if_neg hmc]
      cases hhep : handle_empty_products ex.rows e.blankAnswer with
      | none => exact ⟨rfl, by simp⟩
      | some rows1 =>
        dsimp only
        cases hov : (if rows1.any (fun r =>
              decide (candName (generate_output_name r) 0 ∈ e.fsFiles))
            then ask_yes_no e.overwriteAnswer else some false) with
        | none => exact ⟨rfl, by simp⟩
        | some ov =>
          dsimp only
          have hpres := handle_empty_products_preserves hhep
          have hlen : rows1.length = ex.rows.length := by
            have := congrArg List.length hpres
            simpa using this
          have hi1 : i < rows1.length := by omega
          have hfields : rows1[i].pdf_start = ex.rows[i].pdf_start ∧
              rows1[i].pdf_end = ex.rows[i].pdf_end := by
            have hq : (rows1.map (fun r => (r.pdf_start, r.pdf_end)))[i]? =
                (ex.rows.map (fun r => (r.pdf_start, r.pdf_end)))[i]? := by
              rw [hpres]
            rw [List.getElem?_map, List.getElem?_map,
                List.getElem?_eq_getElem hi1, List.getElem?_eq_getElem hi] at hq
            simp only [Option.map_some', Option.some.injEq, Prod.mk.injEq] at hq
            exact hq
          have hbad1 : invalidRange e.pages.length rows1[i] = true := by
            rw [invalidRange_congr hfields.1 hfields.2]
            exact hbad
          have hl := @loopGo_invalid e.pages.length ov rows1 e.fsFiles 0 i hi1 hbad1
          refine ⟨by simp [hl.1], ?_⟩
          simpa using hl.2

theorem mainRun_success {e : Env} {ex : Excel}
    (hpdf : e.pdfCount = 1) (hex : e.excel = some ex)
    (hmc : ex.missingCols = false) (hne : ex.rows ≠ [])
    (hnb : ∀ r ∈ ex.rows, productsBlank r = false)
    (hfs : e.fsFiles = [])
    (hpw : List.Pairwise (fun a b => a ≠ b) (ex.rows.map generate_output_name))
    (hvalid : ∀ r ∈ ex.rows, invalidRange e.pages.length r = false) :
    (mainRun e).1 = 0 := by
  unfold mainRun
  rw [if_neg (by simp [hpdf]), hex]
  dsimp only
  rw [if_neg (by simp [hmc]; simpa using hne)]
  have hhep : handle_empty_products ex.rows e.blankAnswer = some ex.rows := by
    unfold handle_empty_products
    rw [if_neg ?_]
    intro hcon
    rw [List.any_eq_true] at hcon
    obtain ⟨r, hr, hb⟩ := hcon
    simp [hnb r hr] at hb
  rw [hhep]
  dsimp only
  have hanyex : ex.rows.any (fun r =>
      decide (candName (generate_output_name r) 0 ∈ e.fsFiles)) = false := by
    rw [hfs]
    simp
  rw [hanyex, if_neg (by simp)]
  dsimp only
  have hsucc := loopGo_success ex.rows e.fsFiles 0 hvalid hpw
    (by rw [hfs]; simp)
  simp [hsucc]

theorem mainRun_exit_codes (e : Env) :
    (mainRun e).1 = 0 ∨ (mainRun e).1 = 1 := by
  unfold mainRun
  by_cases hpdf : e.pdfCount ≠ 1
  · rw [if_pos hpdf]
    exact Or.inr rfl
  · rw [if_neg hpdf]
    cases e.excel with
    | none => exact Or.inl rfl
    | some ex =>
      dsimp only
      by_cases hmc : (ex.missingCols = true ∨ ex.rows.isEmpty = true)
      · rw [if_pos hmc]
        exact Or.inr rfl
      · rw [if_neg hmc]
        cases handle_empty_products ex.rows e.blankAnswer with
        | none => exact Or.inr rfl
        | some rows1 =>
          dsimp only
          cases (if rows1.any (fun r =>
                decide (candName (generate_output_name r) 0 ∈ e.fsFiles))
              then ask_yes_no e.overwriteAnswer else some false) with
          | none => exact Or.inr rfl
          | some ov =>
            dsimp only
            cases h : (loopGo e.pages.length ov e.fsFiles rows1 0).2 with
            | false => exact Or.inr (by simp [h])
            | true => exact Or.inl (by simp [h])

/-! ## Lemmas about `ask_yes_no` and blank handling -/

theorem isPySpace_false_of_upper {c : Char} (h1 : 65 ≤ c.toNat)
    (_h2 : c.toNat ≤ 90) : isPySpace c = false := by
  unfold isPySpace
  have f : ∀ d : Char, d.toNat < 65 → ¬(c = d) := by
    intro d hd he
    rw [he] at h1
    omega
  simp only [Bool.or_eq_false_iff, decide_eq_false_iff_not]
  exact ⟨⟨⟨⟨⟨f ' ' (by decide), f '\t' (by decide)⟩, f '\n' (by decide)⟩,
    f '\r' (by decide)⟩, f '\x0b' (by decide)⟩, f '\x0c' (by decide)⟩

theorem isPySpace_toLower (c : Char) :
    isPySpace (Char.toLower c) = isPySpace c := by
  rw [toLower_eq]
  split
  · rename_i hu
    obtain ⟨h1, h2⟩ := hu
    rw [isPySpace_false_of_upper h1 h2]
    generalize c.toNat = n at h1 h2
    interval_cases n <;> decide
  · rfl

theorem pyLower_pyLower (l : Str) : pyLower (pyLower l) = pyLower l := by
  unfold pyLower
  rw [List.map_map]
  exact List.map_congr_left (fun c _ => toLower_toLower c)

theorem pyStrip_pyLower (l : Str) : pyStrip (pyLower l) = pyLower (pyStrip l) := by
  unfold pyStrip pyStripBy pyLower
  rw [List.dropWhile_map,
      show (isPySpace ∘ Char.toLower) = isPySpace from funext isPySpace_toLower,
      ← List.map_reverse, List.dropWhile_map,
      show (isPySpace ∘ Char.toLower) = isPySpace from funext isPySpace_toLower,
      ← List.map_reverse]

theorem ask_yes_no_pyLower (reply : Str) :
    ask_yes_no (pyLower reply) = ask_yes_no reply := by
  unfold ask_yes_no
  rw [pyStrip_pyLower, pyLower_pyLower]

/-! ## Lemmas about all-reserved `products` values -/

theorem collapseAux_true_all {l : Str} (h : ∀ c ∈ l, inClass c = true) :
    collapseAux true l = [] := by
  induction l with
  | nil => rfl
  | cons a as ih =>
    rw [collapseAux, if_pos (h a (List.mem_cons_self a as)), if_pos rfl]
    exact ih (fun c hc => h c (List.mem_cons_of_mem _ hc))

theorem collapseAux_false_all {l : Str} (hne : l ≠ [])
    (h : ∀ c ∈ l, inClass c = true) : collapseAux false l = ['_'] := by
  cases l with
  | nil => exact absurd rfl hne
  | cons a as =>
    rw [collapseAux, if_pos (h a (List.mem_cons_self a as)), if_neg (by simp)]
    rw [collapseAux_true_all (fun c hc => h c (List.mem_cons_of_mem _ hc))]

theorem sanitize_all_class {s : Str} (h : ∀ c ∈ s, inClass c = true) :
    sanitize_filename s = [] := by
  unfold sanitize_filename
  have hstrip : ∀ c ∈ pyStrip s, inClass c = true :=
    fun c hc => h c (mem_pyStripBy hc)
  by_cases hne : pyStrip s = []
  · rw [hne]
    rfl
  · rw [show collapseRuns (pyStrip s) = ['_'] from
        collapseAux_false_all hne hstrip]
    rfl

/-! ## Claims -/

theorem mem_fsAll_of_le {name : Str} {i : Nat} (hi : i ≤ 9999) :
    candName name i ∈
      candName name 0 :: (List.range' 1 9999).map (candName name) := by
  rcases Nat.eq_zero_or_pos i with h0 | hpos
  · subst h0
    exact List.mem_cons_self _ _
  · refine List.mem_cons_of_mem _ (List.mem_map.mpr ⟨i, ?_, rfl⟩)
    rw [List.mem_range']
    exact ⟨i - 1, by omega, by omega⟩

/-- C1: for every spreadsheet row whose page range violates
`pdf_start ≥ 1`, `pdf_start ≤ pdf_end` or `pdf_end ≤ total pages`
(the loop's test `pdf_start < 1 or pdf_end > total_pages or
pdf_start > pdf_end`), the run terminates with exit code 1 and no output
file is written for that row — the bad row is never skipped. -/
theorem invalid_row_aborts_run {e : Env} {ex : Excel} {i : Nat}
    (hex : e.excel = some ex) (hi : i < ex.rows.length)
    (hbad : invalidRange e.pages.length ex.rows[i] = true) :
    (mainRun e).1 = 1 ∧ i ∉ (mainRun e).2.map Prod.fst :=
  mainRun_invalid_row hex hi hbad

theorem invalid_row_aborts_run_witness :
    (mainRun envBadRange).1 = 1 ∧
      0 ∉ (mainRun envBadRange).2.map Prod.fst :=
  invalid_row_aborts_run rfl (by decide) (by decide)

/-- C2 (amended): for every base name, output directory and `N ≤ 9999`
such that `name.pdf`, `name_1.pdf`, …, `name_(N-1).pdf` all exist and
`name_N.pdf` does not, the resolver probes `{name}.pdf`,
`{name}_1.pdf`, … in increasing order and returns `name_N.pdf`.  The
bound `N ≤ 9999` is forced: the probe sequence stops at
`{name}_9999.pdf` (see the counterexample with all 10 000 candidates
taken). -/
theorem collision_resolver_first_free {fs : List Str} {name : Str} {N : Nat}
    (hN : N ≤ 9999)
    (hbelow : ∀ i, i < N → candName name i ∈ fs)
    (hfree : candName name N ∉ fs) :
    unique_output_path fs name = some (candName name N) :=
  unique_output_path_eq_some hN hbelow hfree

theorem collision_resolver_first_free_witness :
    unique_output_path fsTwo "doc".data = some (candName "doc".data 2) :=
  collision_resolver_first_free (by decide) (by decide) (by decide)

/-- C2 counterexample: when exactly the 10 000 candidates `doc.pdf`,
`doc_1.pdf`, …, `doc_9999.pdf` exist (the claim's situation with
`N = 10000`), the resolver does not return `doc_10000.pdf` — it yields
no path at all (`next` raises `StopIteration`). -/
theorem collision_resolver_full_counterexample :
    unique_output_path fsAllCands "doc".data = none :=
  unique_output_path_none (fun _ hi => mem_fsAll_of_le hi)

/-- C3 (amended): for every source document and 1-based inclusive range
`[start, stop]` with `1 ≤ start ≤ stop ≤ total pages`, the extractor
writes to the output path a document holding exactly pages
`start … stop` in original order — provided the parent directory already
exists.  It does **not** create parent directories (see counterexample);
the run driver's `create_output_folder` creates the output folder before
any extraction. -/
theorem extract_pages_slice {pages : List Page} {start stop : Nat}
    {dirs : List Str} {files : List (Str × List Page)} {parent fname : Str}
    (h1 : 1 ≤ start) (h2 : start ≤ stop) (h3 : stop ≤ pages.length)
    (hdir : parent ∈ dirs) :
    extract_pdf_pages_run pages start stop dirs files parent fname =
      some ((parent ++ '/' :: fname,
             (pages.drop (start - 1)).take (stop - start + 1)) :: files) := by
  unfold extract_pdf_pages_run extract_pdf_pages
  rw [mapM_get?_range' (stop - (start - 1)) (start - 1) pages (by omega)]
  rw [show stop - (start - 1) = stop - start + 1 from by omega]
  unfold write_output
  dsimp only
  rw [if_pos hdir]

theorem extract_pages_slice_witness :
    extract_pdf_pages_run [10, 20, 30, 40] 2 3 ["out".data] []
        "out".data "x.pdf".data =
      some (("out".data ++ '/' :: "x.pdf".data, [20, 30]) :: []) :=
  extract_pages_slice (by decide) (by decide) (by decide) (by decide)

/-- C3 counterexample: with a valid page range but a missing parent
directory, the extractor fails (`open` raises `FileNotFoundError`,
modelled `none`) instead of creating the directory and writing. -/
theorem extract_no_mkdir_counterexample :
    extract_pdf_pages_run [0] 1 1 [] [] "out".data "x.pdf".data = none := by
  decide

/-- C4: the generated base filename substitutes the sanitized
`yearbook`, `category`, `year` and `products` fields and the two
yearbook page numbers into
`{yearbook}_{category}_{year}_{first_page}_{last_page}_{product}`; when
the `products` cell is blank (whitespace only, operator-confirmed) the
trailing `_{product}` segment is omitted entirely. -/
theorem output_name_template (r : Row) :
    (productsBlank r = true →
      generate_output_name r =
        sanitize_filename r.yearbook ++ '_' :: sanitize_filename r.category ++
          '_' :: sanitize_filename r.year ++ '_' :: intRepr r.yearbook_start ++
          '_' :: intRepr r.yearbook_end) ∧
    (sanitize_filename r.products ≠ [] →
      generate_output_name r =
        sanitize_filename r.yearbook ++ '_' :: sanitize_filename r.category ++
          '_' :: sanitize_filename r.year ++ '_' :: intRepr r.yearbook_start ++
          '_' :: intRepr r.yearbook_end ++
          '_' :: sanitize_filename r.products) := by
  constructor
  · intro hb
    have hempty : sanitize_filename r.products = [] := by
      rw [productsBlank, List.isEmpty_iff] at hb
      unfold sanitize_filename
      rw [hb]
      rfl
    unfold generate_output_name
    dsimp only
    rw [if_pos hempty]
  · intro hne
    unfold generate_output_name
    dsimp only
    rw [if_neg hne]

theorem output_name_template_witness :
    generate_output_name rowBlankProducts = "acme_sports_2020_1_5".data ∧
    generate_output_name rowBall = "acme_sports_2020_1_5_ball".data := by
  constructor
  · rw [(output_name_template rowBlankProducts).1 (by decide)]
    decide
  · rw [(output_name_template rowBall).2 (by decide)]
    decide

/-- C5 (amended): the sanitizer collapses every run of whitespace or of
the characters `/ : * ? " < > |` — backslash is *not* in the replaced
set — into a single underscore, strips leading/trailing underscores and
lowercases; consequently its output contains none of those reserved
characters, no forward slash, no whitespace, no ASCII uppercase letter,
and no leading or trailing underscore (it may contain a backslash, see
the counterexample). -/
theorem sanitize_output_safe (s : Str) :
    (∀ c ∈ sanitize_filename s,
      inClass c = false ∧ isPySpace c = false ∧
        ¬(65 ≤ c.toNat ∧ c.toNat ≤ 90)) ∧
    (∀ hne : sanitize_filename s ≠ [],
      (sanitize_filename s).head hne ≠ '_' ∧
        (sanitize_filename s).getLast hne ≠ '_') :=
  ⟨fun _ hc => ⟨mem_sanitize_inClass hc, mem_sanitize_not_space hc,
      mem_sanitize_not_upper hc⟩,
   fun hne => ⟨sanitize_head_ne_underscore hne,
      sanitize_getLast_ne_underscore hne⟩⟩

theorem sanitize_output_safe_witness :
    (inClass 'a' = false ∧ isPySpace 'a' = false ∧
      ¬(65 ≤ 'a'.toNat ∧ 'a'.toNat ≤ 90)) ∧
    ((sanitize_filename " A/B ".data).head (by decide) ≠ '_' ∧
      (sanitize_filename " A/B ".data).getLast (by decide) ≠ '_') :=
  ⟨(sanitize_output_safe " A/B ".data).1 'a' (by decide),
   (sanitize_output_safe " A/B ".data).2 (by decide)⟩

/-- C5 counterexample: the character class of the `re.sub` pattern does
not contain a backslash (`\/` escapes the forward slash), so the
backslash in `a\b` is neither collapsed to `_` nor removed: the output
still contains the reserved character `\`. -/
theorem sanitize_backslash_counterexample :
    sanitize_filename ['a', '\\', 'b'] = ['a', '\\', 'b'] ∧
      '\\' ∈ sanitize_filename ['a', '\\', 'b'] := by
  decide

/-- C6: the sanitizer is total and deterministic (it is a pure total
function of its input) and idempotent:
`sanitize(sanitize(x)) = sanitize(x)` for every string `x`. -/
theorem sanitize_idempotent (s : Str) :
    sanitize_filename (sanitize_filename s) = sanitize_filename s :=
  sanitize_filename_idem s

/-- C7: the process exits 0 on a fully successful run and on the
template-creation early exit (spreadsheet absent); it exits 1 on every
validation or processing failure — zero or multiple PDFs, missing
columns, empty table, bad row data — and every run ends with exit code
0 or 1 (the `__main__` handler maps any exception, I/O errors included,
to exit 1). -/
theorem exit_code_policy (e : Env) :
    ((mainRun e).1 = 0 ∨ (mainRun e).1 = 1) ∧
    (e.pdfCount ≠ 1 → (mainRun e).1 = 1) ∧
    (e.pdfCount = 1 → e.excel = none → (mainRun e).1 = 0) ∧
    (∀ ex : Excel, e.excel = some ex →
      (ex.missingCols = true ∨ ex.rows = []) → (mainRun e).1 = 1) ∧
    (∀ ex : Excel, e.excel = some ex → ∀ i, ∀ hi : i < ex.rows.length,
      invalidRange e.pages.length ex.rows[i] = true → (mainRun e).1 = 1) ∧
    (∀ ex : Excel, e.excel = some ex → e.pdfCount = 1 →
      ex.missingCols = false → ex.rows ≠ [] →
      (∀ r ∈ ex.rows, productsBlank r = false) → e.fsFiles = [] →
      List.Pairwise (fun a b => a ≠ b) (ex.rows.map generate_output_name) →
      (∀ r ∈ ex.rows, invalidRange e.pages.length r = false) →
      (mainRun e).1 = 0) := by
  refine ⟨mainRun_exit_codes e, ?_, ?_, ?_, ?_, ?_⟩
  · intro h
    rw [mainRun_pdf_fail h]
  · intro h1 h2
    rw [mainRun_template h1 h2]
  · intro ex hex h
    rw [mainRun_schema_fail hex h]
  · intro ex hex i hi hbad
    exact (mainRun_invalid_row hex hi hbad).1
  · intro ex hex hpdf hmc hne hnb hfs hpw hvalid
    exact mainRun_success hpdf hex hmc hne hnb hfs hpw hvalid

theorem exit_code_policy_witness :
    (mainRun envTwoPdfs).1 = 1 ∧ (mainRun envTemplate).1 = 0 ∧
    (mainRun envMissingCols).1 = 1 ∧ (mainRun envEmptyRows).1 = 1 ∧
    (mainRun envBadRange).1 = 1 ∧ (mainRun envSuccess).1 = 0 :=
  ⟨(exit_code_policy envTwoPdfs).2.1 (by decide),
   (exit_code_policy envTemplate).2.2.1 rfl rfl,
   (exit_code_policy envMissingCols).2.2.2.1 ⟨true, [rowBall]⟩ rfl
     (Or.inl rfl),
   (exit_code_policy envEmptyRows).2.2.2.1 ⟨false, []⟩ rfl (Or.inr rfl),
   (exit_code_policy envBadRange).2.2.2.2.1 ⟨false, [rowBad]⟩ rfl 0
     (by decide) (by decide),
   (exit_code_policy envSuccess).2.2.2.2.2 ⟨false, [rowBall]⟩ rfl rfl rfl
     (by decide) (by decide) rfl (by decide) (by decide)⟩

/-- C8 (amended): the accepted prompt replies are `y` and `n`
case-insensitively (the reply is stripped and lowercased before the
test); on any other reply the program does *not* re-prompt — it prints
an error and exits with code 1 (modelled `none`, see the
counterexample). -/
theorem ask_yes_no_case_insensitive (reply : Str) :
    ask_yes_no (pyLower reply) = ask_yes_no reply ∧
    (ask_yes_no reply = none ↔
      pyLower (pyStrip reply) ≠ "y".data ∧
        pyLower (pyStrip reply) ≠ "n".data) := by
  refine ⟨ask_yes_no_pyLower reply, ?_⟩
  unfold ask_yes_no
  dsimp only
  by_cases h1 : pyLower (pyStrip reply) = "y".data
  · rw [if_pos h1]
    simp [h1]
  · rw [if_neg h1]
    by_cases h2 : pyLower (pyStrip reply) = "n".data
    · rw [if_pos h2]
      simp [h1, h2]
    · rw [if_neg h2]
      simp [h1, h2]

/-- C8 counterexample: the reply `x` is neither `y` nor `n`; the program
terminates — `ask_yes_no` exits with code 1 (`none`) and a run that asks
the blank-products question with this reply ends with exit code 1 and no
output files — instead of re-prompting the operator. -/
theorem ask_yes_no_invalid_counterexample :
    ask_yes_no ['x'] = none ∧ mainRun envInvalidReply = (1, []) := by
  constructor
  · decide
  · decide

/-- C9: the resolver probes only `{name}.pdf` and `{name}_1.pdf` …
`{name}_9999.pdf`: when all 10 000 candidates exist it yields no path
(`StopIteration`, conjunct 1); any path it does return does not exist
(conjunct 2); when some candidate is free it returns a non-existing path
(conjunct 3); and a run whose row hits the exhausted resolver ends with
exit code 1 through the top-level handler, with no file written
(conjunct 4). -/
theorem collision_resolver_bounded :
    (∀ (fs : List Str) (name : Str),
      (∀ i, i ≤ 9999 → candName name i ∈ fs) →
      unique_output_path fs name = none) ∧
    (∀ (fs : List Str) (name p : Str),
      unique_output_path fs name = some p → p ∉ fs) ∧
    (∀ (fs : List Str) (name : Str),
      (∃ i, i ≤ 9999 ∧ candName name i ∉ fs) →
      ∃ p, unique_output_path fs name = some p ∧ p ∉ fs) ∧
    (∀ (e : Env) (ex : Excel) (r : Row),
      e.pdfCount = 1 → e.excel = some ex → ex.missingCols = false →
      ex.rows = [r] → productsBlank r = false →
      invalidRange e.pages.length r = false →
      (∀ i, i ≤ 9999 → candName (generate_output_name r) i ∈ e.fsFiles) →
      ask_yes_no e.overwriteAnswer = some false →
      mainRun e = (1, [])) := by
  refine ⟨fun fs name h => unique_output_path_none h,
         fun fs name p h => unique_output_path_not_mem h,
         fun fs name h => unique_output_path_exists_free h,
         ?_⟩
  intro e ex r hpdf hex hmc hrows hnb hvalid hall hask
  unfold mainRun
  rw [if_neg (by simp [hpdf]), hex]
  dsimp only
  rw [if_neg (by simp [hmc, hrows])]
  have hhep : handle_empty_products ex.rows e.blankAnswer = some ex.rows := by
    unfold handle_empty_products
    rw [if_neg ?_]
    rw [hrows]
    simp [hnb]
  rw [hhep]
  dsimp only
  have hany : ex.rows.any (fun x =>
      decide (candName (generate_output_name x) 0 ∈ e.fsFiles)) = true := by
    rw [hrows, List.any_cons]
    have := hall 0 (by omega)
    simp [this]
  rw [hany, if_pos rfl, hask, hrows]
  dsimp only
  have hpr : processRow false e.fsFiles r = none := by
    rw [processRow]
    rw [if_pos ⟨hall 0 (by omega), by simp⟩]
    exact unique_output_path_none hall
  have hloop : loopGo e.pages.length false e.fsFiles [r] 0 = ([], false) := by
    rw [loopGo, if_neg (by simp [hvalid]), hpr]
  rw [hloop]
  rfl

theorem collision_resolver_bounded_witness :
    unique_output_path fsDocAll (generate_output_name rowDoc) = none ∧
    candName "x".data 0 ∉ ([] : List Str) ∧
    (∃ p, unique_output_path fsTwo "doc".data = some p ∧ p ∉ fsTwo) ∧
    mainRun envExhaust = (1, []) :=
  ⟨collision_resolver_bounded.1 fsDocAll (generate_output_name rowDoc)
     (fun _ hi => mem_fsAll_of_le hi),
   collision_resolver_bounded.2.1 [] "x".data (candName "x".data 0)
     (by decide),
   collision_resolver_bounded.2.2.1 fsTwo "doc".data ⟨2, by decide, by decide⟩,
   collision_resolver_bounded.2.2.2 envExhaust ⟨false, [rowDoc]⟩ rowDoc rfl
     rfl rfl rfl (by decide) (by decide) (fun _ hi => mem_fsAll_of_le hi)
     (by decide)⟩

/-- C10 (amended): the name generator omits the trailing product segment
whenever the sanitized `products` value is empty, not only for a blank
confirmed cell: any `products` value consisting solely of whitespace
and/or the replaced characters `/ : * ? " < > |` (e.g. `???`) yields a
base name without a product segment.  Backslash must be excluded from
that character list (see the counterexample): a backslash survives
sanitization, so a backslash-only `products` value keeps its segment. -/
theorem products_all_reserved_omitted {r : Row}
    (h : ∀ c ∈ r.products, inClass c = true) :
    generate_output_name r =
      sanitize_filename r.yearbook ++ '_' :: sanitize_filename r.category ++
        '_' :: sanitize_filename r.year ++ '_' :: intRepr r.yearbook_start ++
        '_' :: intRepr r.yearbook_end := by
  have hempty : sanitize_filename r.products = [] := sanitize_all_class h
  unfold generate_output_name
  dsimp only
  rw [if_pos hempty]

theorem products_all_reserved_omitted_witness :
    generate_output_name rowQuestion = "acme_sports_2020_1_5".data := by
  rw [@products_all_reserved_omitted rowQuestion (by decide)]
  decide

/-- C10 counterexample: a `products` cell holding a single backslash is
not in the replaced character class, so its sanitized value is `\` and
the generated base name retains a product segment. -/
theorem products_backslash_counterexample :
    generate_output_name rowBackslash = "acme_sports_2020_1_5_\\".data := by
  decide
